import Mathlib

/-!
MesterMC launcher (`mestermc_exe.cpp`)

A shallow embedding of `WinMain` from
`src/main/resources/io/github/tavstal/mmcinstaller/exe/mestermc_exe.cpp`.

* `std::wstring` is a list of `wchar_t` code units; the two `std::wstring`
  members the program uses (`find_last_of`, `substr`) are embedded with the
  semantics of the C++ standard library, `npos` and `std::out_of_range`
  included.
* Pointers to NUL-terminated arrays (`c_str()`, `&command[0]`, the path
  buffer) are embedded as the list of code units they point to; a callee
  reads such an array up to the first NUL (`wcs`).
* The Win32 / CRT functions are the environment: their answers are the
  fields of `World`, and every call `WinMain` makes is recorded, in order and
  with its arguments, in the `calls` of the resulting `Run`.
-/

set_option autoImplicit false

namespace MesterMC

/-! Strings -/

/-- A `wchar_t`: one UTF-16 code unit. No arithmetic is done on code units,
so the value is kept as a natural number. -/
abbrev WChar := Nat

/-- A `std::wstring`: its code units, without a terminator. -/
abbrev WString := List WChar

/-- A wide string literal `L"..."` (the literals of the program are ASCII, so
each character is one code unit). -/
def L (s : String) : WString := s.toList.map Char.toNat

/-- The terminator `L'\0'`. -/
def NUL : WChar := 0

/-- The character `L'\\'` (U+005C). -/
def backslash : WChar := 92

/-- The constant `std::wstring::npos`, i.e. `size_t(-1)` for a 64-bit `size_t`.
The strings of the program are shorter than `MAX_PATH` plus the literals, so
a 32-bit `size_t` gives the same runs. -/
def npos : Nat := 2 ^ 64 - 1

/-- The loop of `find_last_of` / `rfind` for one character: look at the
indices `i - 1, i - 2, ..., 0` in that order and return the first one holding
`c`; `npos` when none does. -/
def rscan (s : WString) (c : WChar) : Nat → Nat
  | 0 => npos
  | i + 1 => if s[i]? = some c then i else rscan s c i

/-- The member `s.find_last_of(c)`: the position of the last `c` in `s`, or `npos`. -/
def find_last_of (s : WString) (c : WChar) : Nat :=
  rscan s c s.length

/-- The member `s.substr(pos, count)`: throws `std::out_of_range` (here `none`) when
`pos > size()`, and is otherwise the `min(count, size() - pos)` code units
from `pos` on. -/
def substr (s : WString) (pos count : Nat) : Option WString :=
  if pos > s.length then none
  else some ((s.drop pos).take (min count (s.length - pos)))

/-- The array `s.c_str()` (and `&s[0]`) points to: the code units of `s`
followed by a terminator. -/
def c_str (s : WString) : List WChar := s ++ [NUL]

/-- The string a pointer to a NUL-terminated array denotes: the code units
before the first NUL. This is what `std::wstring`'s constructor from
`const wchar_t*` and every Win32 / CRT function taking an `LPCWSTR` read. -/
def wcs (p : List WChar) : WString := p.takeWhile (fun c => c ≠ NUL)

/-! The environment -/

/-- The constant `MAX_PATH` of `<windows.h>`. -/
def MAX_PATH : Nat := 260

/-- The constant `MB_OK` of `<windows.h>`. -/
def MB_OK : Nat := 0x0

/-- The constant `MB_ICONERROR` of `<windows.h>`. -/
def MB_ICONERROR : Nat := 0x10

/-- A `HANDLE` / `HINSTANCE` / `HWND` value. -/
abbrev HANDLE := Nat

/-- The fields of `PROCESS_INFORMATION`. -/
structure PROCESS_INFORMATION where
  hProcess : HANDLE
  hThread : HANDLE
  dwProcessId : Nat
  dwThreadId : Nat
  deriving DecidableEq

/-- The arguments of one `CreateProcessW` call. A pointer argument is `none`
when it is `NULL`; a string argument is the string read from the pointer.
`lpStartupInfo` is the zeroed `STARTUPINFOW` with `cb` set and
`lpProcessInformation` is the out-parameter; neither varies. -/
structure CreateProcessArgs where
  lpApplicationName : Option WString
  lpCommandLine : Option WString
  lpProcessAttributes : Option Unit
  lpThreadAttributes : Option Unit
  bInheritHandles : Bool
  dwCreationFlags : Nat
  lpEnvironment : Option Unit
  lpCurrentDirectory : Option WString
  deriving DecidableEq

/-- One call into the operating system or the C runtime, with its
arguments. -/
inductive Call where
  | GetModuleFileNameW (hModule : Option HANDLE) (nSize : Nat)
  | _waccess (path : WString) (mode : Int)
  | MessageBoxW (hWnd : Option HANDLE) (lpText lpCaption : WString) (uType : Nat)
  | CreateProcessW (args : CreateProcessArgs)
  | CloseHandle (hObject : HANDLE)
  deriving DecidableEq

/-- What the environment answers.

* `moduleFileName`: the path of the running executable.
* `_waccess path mode`: the CRT existence probe, `0` or `-1`.
* `CreateProcessW args`: `none` when the call returns `FALSE`, otherwise the
  `PROCESS_INFORMATION` it fills in. The call is taken to leave the
  command-line buffer as it found it.
* `currentDirectory`: the current directory of the caller. -/
structure World where
  moduleFileName : WString
  _waccess : WString → Int → Int
  CreateProcessW : CreateProcessArgs → Option PROCESS_INFORMATION
  currentDirectory : WString

/-- The array left in `lpFilename` by `GetModuleFileNameW(NULL, lpFilename,
nSize)`: the path of the executable, cut to `nSize - 1` code units when it
is longer, and a terminator. The call is taken to succeed. -/
def GetModuleFileNameW (os : World) (_hModule : Option HANDLE) (nSize : Nat) : List WChar :=
  os.moduleFileName.take (nSize - 1) ++ [NUL]

/-- A finished run: the value returned from `WinMain` and the calls made, in
order. -/
structure Run where
  exitCode : Int
  calls : List Call
  deriving DecidableEq

/-! The program -/

/-- The entry point `WinMain`, statement by statement. The result is `none` when the run ends
in an uncaught `std::out_of_range` instead of returning. -/
def WinMain (_hInstance _hPrevInstance : HANDLE) (_lpCmdLine : List Nat) (_nCmdShow : Int)
    (os : World) : Option Run :=
  let exePathBuffer := GetModuleFileNameW os none MAX_PATH
  let t := [Call.GetModuleFileNameW none MAX_PATH]
  let exeFullPath : WString := wcs exePathBuffer
  match substr exeFullPath 0 (find_last_of exeFullPath backslash) with
  | none => none
  | some exeDir =>
    let jarFileName := L "MesterMC.jar"
    let jarPath := exeDir ++ L "\\" ++ jarFileName
    let t := t ++ [Call._waccess (wcs (c_str jarPath)) 0]
    if os._waccess (wcs (c_str jarPath)) 0 = -1 then
      let t := t ++ [Call.MessageBoxW none
        (wcs (c_str (L "MesterMC.jar not found at:\n" ++ jarPath
          ++ L "\nPlease ensure the application is installed correctly.")))
        (wcs (c_str (L "Launch Error"))) (MB_OK ||| MB_ICONERROR)]
      some ⟨1, t⟩
    else
      let command := L "javaw.exe -jar \""
      let command := command ++ jarPath
      let command := command ++ L "\""
      let args : CreateProcessArgs :=
        ⟨none, some (wcs (c_str command)), none, none, false, 0, none,
          some (wcs (c_str exeDir))⟩
      let t := t ++ [Call.CreateProcessW args]
      match os.CreateProcessW args with
      | none =>
        let t := t ++ [Call.MessageBoxW none
          (wcs (c_str (L "Failed to launch MesterMC.jar. Command: " ++ command
            ++ L "\nEnsure Java is installed.")))
          (wcs (c_str (L "Launch Error"))) (MB_OK ||| MB_ICONERROR)]
        some ⟨1, t⟩
      | some pi =>
        let t := t ++ [Call.CloseHandle pi.hProcess]
        let t := t ++ [Call.CloseHandle pi.hThread]
        some ⟨0, t⟩

/-! Named parts of a run

The values of the local variables of `WinMain`, as functions of the
environment, and the projections of a run used to state its properties. -/

/-- The local `exeFullPath`: the string read from the buffer that
`GetModuleFileNameW` filled. -/
def exeFullPath (os : World) : WString :=
  wcs (GetModuleFileNameW os none MAX_PATH)

/-- The derivation of the base directory from a path, as written in the
source: `p.substr(0, p.find_last_of(L'\\'))`. -/
def dirOf (p : WString) : Option WString :=
  substr p 0 (find_last_of p backslash)

/-- The local `exeDir`: the code units of `exeFullPath` before the position
`find_last_of` returns. -/
def exeDir (os : World) : WString :=
  (exeFullPath os).take (find_last_of (exeFullPath os) backslash)

/-- The local `jarPath`. -/
def jarPath (os : World) : WString :=
  exeDir os ++ L "\\" ++ L "MesterMC.jar"

/-- The local `command` after its two `+=`. -/
def command (os : World) : WString :=
  L "javaw.exe -jar \"" ++ jarPath os ++ L "\""

/-- The arguments of the `CreateProcessW` call. -/
def createArgs (os : World) : CreateProcessArgs :=
  { lpApplicationName := none
    lpCommandLine := some (command os)
    lpProcessAttributes := none
    lpThreadAttributes := none
    bInheritHandles := false
    dwCreationFlags := 0
    lpEnvironment := none
    lpCurrentDirectory := some (exeDir os) }

/-- The text of the dialog shown when the resource is absent. -/
def notFoundText (path : WString) : WString :=
  L "MesterMC.jar not found at:\n" ++ path
    ++ L "\nPlease ensure the application is installed correctly."

/-- The text of the dialog shown when process creation fails. -/
def launchFailedText (cmd : WString) : WString :=
  L "Failed to launch MesterMC.jar. Command: " ++ cmd ++ L "\nEnsure Java is installed."

/-- One dialog: the text, caption and style given to `MessageBoxW`. -/
structure Dialog where
  lpText : WString
  lpCaption : WString
  uType : Nat
  deriving DecidableEq

/-- The dialogs presented by a sequence of calls. -/
def dialogs (cs : List Call) : List Dialog :=
  cs.filterMap fun
    | .MessageBoxW _ text caption style => some ⟨text, caption, style⟩
    | _ => none

/-- The process-creation requests in a sequence of calls. -/
def creations (cs : List Call) : List CreateProcessArgs :=
  cs.filterMap fun
    | .CreateProcessW args => some args
    | _ => none

/-- The handles closed by a sequence of calls. -/
def closed (cs : List Call) : List HANDLE :=
  cs.filterMap fun
    | .CloseHandle h => some h
    | _ => none

/-- The paths probed by a sequence of calls. -/
def probes (cs : List Call) : List WString :=
  cs.filterMap fun
    | ._waccess path _ => some path
    | _ => none

/-- The run that ends at the resource-not-found dialog. -/
def runNotFound (os : World) : Run :=
  ⟨1, [.GetModuleFileNameW none MAX_PATH, ._waccess (jarPath os) 0,
    .MessageBoxW none (notFoundText (jarPath os)) (L "Launch Error") (MB_OK ||| MB_ICONERROR)]⟩

/-- The run that ends at the launch-failure dialog. -/
def runLaunchFailed (os : World) : Run :=
  ⟨1, [.GetModuleFileNameW none MAX_PATH, ._waccess (jarPath os) 0,
    .CreateProcessW (createArgs os),
    .MessageBoxW none (launchFailedText (command os)) (L "Launch Error")
      (MB_OK ||| MB_ICONERROR)]⟩

/-- The run that creates the process and closes its two handles. -/
def runLaunched (os : World) (pi : PROCESS_INFORMATION) : Run :=
  ⟨0, [.GetModuleFileNameW none MAX_PATH, ._waccess (jarPath os) 0,
    .CreateProcessW (createArgs os), .CloseHandle pi.hProcess, .CloseHandle pi.hThread]⟩

/-! Sample environments -/

/-- The executable path of the specification's example. -/
def launcherExe : WString := L "C:\\Apps\\Launcher\\Launcher.exe"

/-- An installation where only `C:\Apps\Launcher\MesterMC.jar` exists. -/
def probeInstalled (path : WString) (_mode : Int) : Int :=
  if path = L "C:\\Apps\\Launcher\\MesterMC.jar" then 0 else -1

/-- A system on which `javaw.exe -jar "C:\Apps\Launcher\MesterMC.jar"` starts. -/
def javaPresent (args : CreateProcessArgs) : Option PROCESS_INFORMATION :=
  if args.lpCommandLine = some (L "javaw.exe -jar \"C:\\Apps\\Launcher\\MesterMC.jar\"")
  then some ⟨4, 8, 100, 101⟩ else none

/-- The resource file is missing. -/
def osAbsent : World :=
  { moduleFileName := launcherExe
    _waccess := fun _ _ => -1
    CreateProcessW := javaPresent
    currentDirectory := L "C:\\Users" }

/-- The resource file is there, no process can be created. -/
def osNoJava : World :=
  { moduleFileName := launcherExe
    _waccess := probeInstalled
    CreateProcessW := fun _ => none
    currentDirectory := L "C:\\Users" }

/-- A valid installation. -/
def osInstalled : World :=
  { moduleFileName := launcherExe
    _waccess := probeInstalled
    CreateProcessW := javaPresent
    currentDirectory := L "C:\\Users" }

/-- The valid installation, started from another directory. -/
def osElsewhere : World :=
  { moduleFileName := launcherExe
    _waccess := probeInstalled
    CreateProcessW := javaPresent
    currentDirectory := L "D:\\Work" }

/-- An executable path written with forward slashes only. -/
def osSlashes : World :=
  { moduleFileName := L "C:/Apps/Launcher/Launcher.exe"
    _waccess := fun _ _ => -1
    CreateProcessW := fun _ => none
    currentDirectory := L "C:\\Users" }

/-- An executable directly under the root of a drive. -/
def osRoot : World :=
  { moduleFileName := L "C:\\Launcher.exe"
    _waccess := fun _ _ => -1
    CreateProcessW := fun _ => none
    currentDirectory := L "C:\\Users" }

/-- An empty executable path. -/
def osEmpty : World :=
  { moduleFileName := []
    _waccess := fun _ _ => -1
    CreateProcessW := fun _ => none
    currentDirectory := L "C:\\Users" }

/-! Strings: lemmas -/

theorem rscan_eq_npos (s : WString) (c : WChar) (i : Nat)
    (h : ∀ j, j < i → s[j]? ≠ some c) : rscan s c i = npos := by
  induction i with
  | zero => rfl
  | succ i ih =>
    have hi : s[i]? ≠ some c := h i (Nat.lt_succ_self i)
    simp only [rscan, hi, if_false]
    exact ih fun j hj => h j (Nat.lt_succ_of_lt hj)

theorem mem_of_getElem?_eq (s : WString) (c : WChar) (j : Nat) (h : s[j]? = some c) :
    c ∈ s := by
  rw [List.getElem?_eq_some] at h
  obtain ⟨hj, rfl⟩ := h
  exact List.getElem_mem hj

theorem find_last_of_eq_npos (s : WString) (c : WChar) (h : c ∉ s) :
    find_last_of s c = npos := by
  apply rscan_eq_npos
  intro j _ hj
  exact h (mem_of_getElem?_eq s c j hj)

theorem rscan_append (d f : WString) (c : WChar) (hf : c ∉ f) (k : Nat) (hk : k ≤ f.length) :
    rscan (d ++ c :: f) c (d.length + 1 + k) = d.length := by
  induction k with
  | zero =>
    show rscan (d ++ c :: f) c (d.length + 1) = d.length
    have h0 : (d ++ c :: f)[d.length]? = some c := by
      rw [List.getElem?_append_right (Nat.le_refl _)]
      simp
    simp only [rscan, h0, if_true]
  | succ k ih =>
    have hk1 : k < f.length := hk
    have hne : (d ++ c :: f)[d.length + 1 + k]? ≠ some c := by
      intro hj
      have h2 : (d ++ c :: f)[d.length + 1 + k]? = f[k]? := by
        rw [List.getElem?_append_right (by omega)]
        have : d.length + 1 + k - d.length = k + 1 := by omega
        rw [this]
        exact List.getElem?_cons_succ
      rw [h2] at hj
      exact hf (mem_of_getElem?_eq f c k hj)
    show rscan (d ++ c :: f) c ((d.length + 1 + k) + 1) = d.length
    simp only [rscan, hne, if_false]
    exact ih (Nat.le_of_lt hk1)

theorem find_last_of_append (d f : WString) (c : WChar) (hf : c ∉ f) :
    find_last_of (d ++ c :: f) c = d.length := by
  have h := rscan_append d f c hf f.length (Nat.le_refl _)
  have hl : (d ++ c :: f).length = d.length + 1 + f.length := by
    simp; omega
  unfold find_last_of
  rw [hl]
  exact h

theorem rscan_lt_or (s : WString) (c : WChar) (i : Nat) :
    rscan s c i < i ∨ (rscan s c i = npos ∧ ∀ j, j < i → s[j]? ≠ some c) := by
  induction i with
  | zero => right; exact ⟨rfl, fun j hj => absurd hj (Nat.not_lt_zero j)⟩
  | succ i ih =>
    by_cases hi : s[i]? = some c
    · left
      simp only [rscan, hi, if_true]
      exact Nat.lt_succ_self i
    · simp only [rscan, hi, if_false]
      rcases ih with h | ⟨h1, h2⟩
      · left; omega
      · right
        refine ⟨h1, fun j hj => ?_⟩
        rcases Nat.lt_succ_iff_lt_or_eq.mp hj with h | h
        · exact h2 j h
        · rw [h]; exact hi

theorem find_last_of_lt (s : WString) (c : WChar) (h : c ∈ s) :
    find_last_of s c < s.length := by
  rcases rscan_lt_or s c s.length with h1 | ⟨_, h2⟩
  · exact h1
  · exfalso
    obtain ⟨n, hn, hget⟩ := List.getElem_of_mem h
    exact h2 n hn (by rw [List.getElem?_eq_getElem hn, hget])

theorem substr_zero (s : WString) (n : Nat) : substr s 0 n = some (s.take n) := by
  simp [substr, List.take_eq_take]

theorem wcs_c_str (s : WString) (h : NUL ∉ s) : wcs (c_str s) = s := by
  induction s with
  | nil => simp [wcs, c_str]
  | cons a s ih =>
    have ha : decide (a ≠ NUL) = true :=
      decide_eq_true fun e => h (e ▸ List.mem_cons_self a s)
    have hs : NUL ∉ s := fun e => h (List.mem_cons_of_mem a e)
    show List.takeWhile (fun c => decide (c ≠ NUL)) (a :: (s ++ [NUL])) = a :: s
    simp only [List.takeWhile_cons, ha, if_true]
    exact congrArg (List.cons a) (ih hs)

theorem nul_not_mem_wcs (p : List WChar) : NUL ∉ wcs p := by
  intro h
  have := List.mem_takeWhile_imp h
  simp at this

theorem wcs_length_le (p : List WChar) : (wcs p).length ≤ p.length :=
  (List.takeWhile_prefix _).length_le

theorem nul_not_mem_L_sep : NUL ∉ L "\\" := by decide

theorem nul_not_mem_L_jar : NUL ∉ L "MesterMC.jar" := by decide

theorem nul_not_mem_L_javaw : NUL ∉ L "javaw.exe -jar \"" := by decide

theorem nul_not_mem_L_quote : NUL ∉ L "\"" := by decide

theorem nul_not_mem_L_caption : NUL ∉ L "Launch Error" := by decide

theorem nul_not_mem_L_notFound : NUL ∉ L "MesterMC.jar not found at:\n" := by decide

theorem nul_not_mem_L_ensure :
    NUL ∉ L "\nPlease ensure the application is installed correctly." := by decide

theorem nul_not_mem_L_failed : NUL ∉ L "Failed to launch MesterMC.jar. Command: " := by decide

theorem nul_not_mem_L_java : NUL ∉ L "\nEnsure Java is installed." := by decide

/-! The run: lemmas -/

theorem nul_not_mem_exeFullPath (os : World) : NUL ∉ exeFullPath os :=
  nul_not_mem_wcs _

theorem exeFullPath_length_lt (os : World) : (exeFullPath os).length < MAX_PATH := by
  have h := wcs_length_le (GetModuleFileNameW os none MAX_PATH)
  have h2 : (GetModuleFileNameW os none MAX_PATH).length ≤ MAX_PATH := by
    simp only [GetModuleFileNameW, MAX_PATH, List.length_append, List.length_take,
      List.length_singleton]
    omega
  have h3 : (exeFullPath os).length ≠ MAX_PATH := by
    intro e
    have hp : wcs (GetModuleFileNameW os none MAX_PATH) <+: GetModuleFileNameW os none MAX_PATH :=
      List.takeWhile_prefix _
    have hl : (GetModuleFileNameW os none MAX_PATH).length
        ≤ (wcs (GetModuleFileNameW os none MAX_PATH)).length := by
      have : (wcs (GetModuleFileNameW os none MAX_PATH)).length = MAX_PATH := e
      omega
    have heq := hp.eq_of_length_le hl
    have hmem : NUL ∈ GetModuleFileNameW os none MAX_PATH := by
      simp [GetModuleFileNameW]
    rw [← heq] at hmem
    exact nul_not_mem_wcs _ hmem
  unfold exeFullPath at h3 ⊢
  omega

theorem exeFullPath_length_lt_npos (os : World) : (exeFullPath os).length < npos := by
  have h := exeFullPath_length_lt os
  simp only [MAX_PATH] at h
  simp only [npos]
  omega

theorem nul_not_mem_exeDir (os : World) : NUL ∉ exeDir os :=
  fun h => nul_not_mem_exeFullPath os (List.mem_of_mem_take h)

theorem nul_not_mem_jarPath (os : World) : NUL ∉ jarPath os := by
  simp only [jarPath, List.mem_append, not_or]
  exact ⟨⟨nul_not_mem_exeDir os, nul_not_mem_L_sep⟩, nul_not_mem_L_jar⟩

theorem nul_not_mem_command (os : World) : NUL ∉ command os := by
  simp only [command, List.mem_append, not_or]
  exact ⟨⟨nul_not_mem_L_javaw, nul_not_mem_jarPath os⟩, nul_not_mem_L_quote⟩

theorem nul_not_mem_notFoundText (os : World) : NUL ∉ notFoundText (jarPath os) := by
  simp only [notFoundText, List.mem_append, not_or]
  exact ⟨⟨nul_not_mem_L_notFound, nul_not_mem_jarPath os⟩, nul_not_mem_L_ensure⟩

theorem nul_not_mem_launchFailedText (os : World) :
    NUL ∉ launchFailedText (command os) := by
  simp only [launchFailedText, List.mem_append, not_or]
  exact ⟨⟨nul_not_mem_L_failed, nul_not_mem_command os⟩, nul_not_mem_L_java⟩

theorem dirOf_exeFullPath (os : World) : dirOf (exeFullPath os) = some (exeDir os) :=
  substr_zero _ _

/-- The entry point returns for every environment, and its run is one of three. -/
theorem WinMain_eq (hInstance hPrevInstance : HANDLE) (lpCmdLine : List Nat) (nCmdShow : Int)
    (os : World) :
    WinMain hInstance hPrevInstance lpCmdLine nCmdShow os =
      some (if os._waccess (jarPath os) 0 = -1 then runNotFound os
        else match os.CreateProcessW (createArgs os) with
          | none => runLaunchFailed os
          | some pi => runLaunched os pi) := by
  have hd : substr (wcs (GetModuleFileNameW os none MAX_PATH)) 0
      (find_last_of (wcs (GetModuleFileNameW os none MAX_PATH)) backslash)
      = some (exeDir os) := dirOf_exeFullPath os
  have hj := wcs_c_str _ (nul_not_mem_jarPath os)
  have hc := wcs_c_str _ (nul_not_mem_command os)
  have he := wcs_c_str _ (nul_not_mem_exeDir os)
  have hn := wcs_c_str _ (nul_not_mem_notFoundText os)
  have hl := wcs_c_str _ (nul_not_mem_launchFailedText os)
  have hcap := wcs_c_str _ nul_not_mem_L_caption
  simp only [jarPath, command, notFoundText, launchFailedText] at hj hc hn hl
  simp only [WinMain, hd, hj, hc, he, hn, hl, hcap]
  by_cases hp : os._waccess (exeDir os ++ L "\\" ++ L "MesterMC.jar") 0 = -1
  · simp only [hp, if_true, jarPath]
    rfl
  · simp only [hp, if_false, jarPath]
    cases hcp : os.CreateProcessW (createArgs os) <;>
      simp only [createArgs, command, jarPath] at hcp <;>
      simp only [hcp, createArgs, command, jarPath] <;> rfl

/-! The claims -/

/-- C1: when the existence probe on the derived resource path (base
directory, `\`, `MesterMC.jar`) reports the file absent, `WinMain` returns 1,
presents exactly one dialog, whose text contains that path, probes no other
path and requests no process creation. -/
theorem C1_resource_absent (hInstance hPrevInstance : HANDLE) (lpCmdLine : List Nat)
    (nCmdShow : Int) (os : World)
    (habsent : os._waccess (exeDir os ++ L "\\" ++ L "MesterMC.jar") 0 = -1) :
    ∃ r text, WinMain hInstance hPrevInstance lpCmdLine nCmdShow os = some r ∧
      r.exitCode = 1 ∧
      dialogs r.calls = [⟨text, L "Launch Error", MB_OK ||| MB_ICONERROR⟩] ∧
      (exeDir os ++ L "\\" ++ L "MesterMC.jar") <:+: text ∧
      probes r.calls = [exeDir os ++ L "\\" ++ L "MesterMC.jar"] ∧
      creations r.calls = [] := by
  have hp : os._waccess (jarPath os) 0 = -1 := habsent
  refine ⟨runNotFound os, notFoundText (jarPath os), ?_, rfl, rfl, ?_, rfl, rfl⟩
  · rw [WinMain_eq, if_pos hp]
  · exact ⟨L "MesterMC.jar not found at:\n",
      L "\nPlease ensure the application is installed correctly.", rfl⟩

/-- C1 at the installation whose resource file is missing. -/
theorem C1_resource_absent_witness :
    osAbsent._waccess (L "C:\\Apps\\Launcher\\MesterMC.jar") 0 = -1 ∧
    ∃ r text, WinMain 0 0 [] 1 osAbsent = some r ∧
      r.exitCode = 1 ∧
      dialogs r.calls = [⟨text, L "Launch Error", MB_OK ||| MB_ICONERROR⟩] ∧
      (exeDir osAbsent ++ L "\\" ++ L "MesterMC.jar") <:+: text ∧
      probes r.calls = [exeDir osAbsent ++ L "\\" ++ L "MesterMC.jar"] ∧
      creations r.calls = [] :=
  ⟨by decide, C1_resource_absent 0 0 [] 1 osAbsent (by decide)⟩

/-- C2: when the resource file exists and process creation fails, `WinMain`
returns 1, presents exactly one dialog, whose text contains the command line
that was passed to process creation, requests process creation exactly once
and closes no handle. -/
theorem C2_launch_failure (hInstance hPrevInstance : HANDLE) (lpCmdLine : List Nat)
    (nCmdShow : Int) (os : World)
    (hexists : os._waccess (jarPath os) 0 ≠ -1)
    (hfail : os.CreateProcessW (createArgs os) = none) :
    ∃ r text cmd, WinMain hInstance hPrevInstance lpCmdLine nCmdShow os = some r ∧
      r.exitCode = 1 ∧
      dialogs r.calls = [⟨text, L "Launch Error", MB_OK ||| MB_ICONERROR⟩] ∧
      (creations r.calls).map (fun a => a.lpCommandLine) = [some cmd] ∧
      cmd <:+: text ∧
      closed r.calls = [] := by
  refine ⟨runLaunchFailed os, launchFailedText (command os), command os, ?_, rfl, rfl, rfl,
    ?_, rfl⟩
  · rw [WinMain_eq, if_neg hexists, hfail]
  · exact ⟨L "Failed to launch MesterMC.jar. Command: ", L "\nEnsure Java is installed.", rfl⟩

/-- C2 at the installation without a Java runtime. -/
theorem C2_launch_failure_witness :
    osNoJava._waccess (L "C:\\Apps\\Launcher\\MesterMC.jar") 0 ≠ -1 ∧
    ∃ r text cmd, WinMain 0 0 [] 1 osNoJava = some r ∧
      r.exitCode = 1 ∧
      dialogs r.calls = [⟨text, L "Launch Error", MB_OK ||| MB_ICONERROR⟩] ∧
      (creations r.calls).map (fun a => a.lpCommandLine) = [some cmd] ∧
      cmd <:+: text ∧
      closed r.calls = [] :=
  ⟨by decide, C2_launch_failure 0 0 [] 1 osNoJava (by decide) (by decide)⟩

/-- C3: when the resource file exists and process creation succeeds,
`WinMain` returns 0, requests process creation exactly once, with the base
directory derived from the executable path as working directory, and shows
no dialog. -/
theorem C3_success (hInstance hPrevInstance : HANDLE) (lpCmdLine : List Nat)
    (nCmdShow : Int) (os : World) (pi : PROCESS_INFORMATION)
    (hexists : os._waccess (jarPath os) 0 ≠ -1)
    (hcreated : os.CreateProcessW (createArgs os) = some pi) :
    ∃ r dir, WinMain hInstance hPrevInstance lpCmdLine nCmdShow os = some r ∧
      r.exitCode = 0 ∧
      dirOf (exeFullPath os) = some dir ∧
      (creations r.calls).map (fun a => a.lpCurrentDirectory) = [some dir] ∧
      dialogs r.calls = [] := by
  refine ⟨runLaunched os pi, exeDir os, ?_, rfl, dirOf_exeFullPath os, rfl, rfl⟩
  rw [WinMain_eq, if_neg hexists, hcreated]

/-- C3 at the valid installation. -/
theorem C3_success_witness :
    osInstalled._waccess (L "C:\\Apps\\Launcher\\MesterMC.jar") 0 ≠ -1 ∧
    ∃ r dir, WinMain 0 0 [] 1 osInstalled = some r ∧
      r.exitCode = 0 ∧
      dirOf (exeFullPath osInstalled) = some dir ∧
      (creations r.calls).map (fun a => a.lpCurrentDirectory) = [some dir] ∧
      dialogs r.calls = [] :=
  ⟨by decide, C3_success 0 0 [] 1 osInstalled ⟨4, 8, 100, 101⟩ (by decide) (by decide)⟩

/-- C4: when the executable path is `d`, `\`, `f` with no backslash in `f`,
the base directory is exactly `d` and the resource path, the one `WinMain`
probes, is exactly `d` followed by `\MesterMC.jar`, whatever `d` contains; and
`C:\Apps\Launcher\Launcher.exe` gives `C:\Apps\Launcher\MesterMC.jar`. -/
theorem C4_resource_path (d f : WString) (hf : backslash ∉ f) :
    dirOf (d ++ L "\\" ++ f) = some d ∧
    (∀ os : World, exeFullPath os = d ++ L "\\" ++ f →
      exeDir os = d ∧ jarPath os = d ++ L "\\MesterMC.jar" ∧
      ∀ (hInstance hPrevInstance : HANDLE) (lpCmdLine : List Nat) (nCmdShow : Int),
        ∃ r, WinMain hInstance hPrevInstance lpCmdLine nCmdShow os = some r ∧
          probes r.calls = [d ++ L "\\MesterMC.jar"]) ∧
    (∀ os : World, exeFullPath os = L "C:\\Apps\\Launcher\\Launcher.exe" →
      jarPath os = L "C:\\Apps\\Launcher\\MesterMC.jar") := by
  have hpos : find_last_of (d ++ L "\\" ++ f) backslash = d.length := by
    rw [List.append_assoc]
    exact find_last_of_append d f backslash hf
  have htake : (d ++ L "\\" ++ f).take d.length = d := by
    rw [List.append_assoc]
    exact List.take_left' rfl
  refine ⟨?_, ?_, ?_⟩
  · rw [dirOf, substr_zero, hpos, htake]
  · intro os hos
    have hdir : exeDir os = d := by rw [exeDir, hos, hpos, htake]
    have hjar : jarPath os = d ++ L "\\MesterMC.jar" := by
      rw [jarPath, hdir, List.append_assoc]
      rfl
    refine ⟨hdir, hjar, fun hInstance hPrevInstance lpCmdLine nCmdShow => ?_⟩
    rw [WinMain_eq, ← hjar]
    by_cases hp : os._waccess (jarPath os) 0 = -1
    · rw [if_pos hp]
      exact ⟨_, rfl, rfl⟩
    · rw [if_neg hp]
      cases os.CreateProcessW (createArgs os) <;> exact ⟨_, rfl, rfl⟩
  · intro os hos
    rw [jarPath, exeDir, hos]
    decide

/-- C4 at the executable path of the specification's example. -/
theorem C4_resource_path_witness :
    backslash ∉ L "Launcher.exe" ∧
    exeFullPath osInstalled = L "C:\\Apps\\Launcher" ++ L "\\" ++ L "Launcher.exe" ∧
    dirOf (L "C:\\Apps\\Launcher" ++ L "\\" ++ L "Launcher.exe")
      = some (L "C:\\Apps\\Launcher") ∧
    jarPath osInstalled = L "C:\\Apps\\Launcher" ++ L "\\MesterMC.jar" :=
  have h := C4_resource_path (L "C:\\Apps\\Launcher") (L "Launcher.exe") (by decide)
  ⟨by decide, by decide, h.1, (h.2.1 osInstalled (by decide)).2.1⟩

/-- C5: when the resource file exists, the command line of the one
process-creation request is `javaw.exe`, a space, `-jar`, a space, a double
quote, the resource path and a double quote, and nothing else; when the
creation fails, the dialog text embeds that same string. -/
theorem C5_command_line (hInstance hPrevInstance : HANDLE) (lpCmdLine : List Nat)
    (nCmdShow : Int) (os : World)
    (hexists : os._waccess (jarPath os) 0 ≠ -1) :
    ∃ r cmd, WinMain hInstance hPrevInstance lpCmdLine nCmdShow os = some r ∧
      cmd = L "javaw.exe" ++ L " " ++ L "-jar" ++ L " " ++ L "\"" ++ jarPath os ++ L "\"" ∧
      (creations r.calls).map (fun a => a.lpCommandLine) = [some cmd] ∧
      (os.CreateProcessW (createArgs os) = none →
        (dialogs r.calls).map (fun d => d.lpText) =
          [L "Failed to launch MesterMC.jar. Command: " ++ cmd
            ++ L "\nEnsure Java is installed."]) := by
  have hcmd : command os
      = L "javaw.exe" ++ L " " ++ L "-jar" ++ L " " ++ L "\"" ++ jarPath os ++ L "\"" := by
    rw [command]
    rfl
  rw [WinMain_eq, if_neg hexists, ← hcmd]
  cases hcp : os.CreateProcessW (createArgs os) with
  | none => exact ⟨_, _, rfl, rfl, rfl, fun _ => rfl⟩
  | some pi => exact ⟨_, _, rfl, rfl, rfl, fun h => Option.noConfusion h⟩

/-- C5 at the installation without a Java runtime. -/
theorem C5_command_line_witness :
    osNoJava._waccess (L "C:\\Apps\\Launcher\\MesterMC.jar") 0 ≠ -1 ∧
    jarPath osNoJava = L "C:\\Apps\\Launcher\\MesterMC.jar" ∧
    ∃ r cmd, WinMain 0 0 [] 1 osNoJava = some r ∧
      cmd = L "javaw.exe" ++ L " " ++ L "-jar" ++ L " " ++ L "\"" ++ jarPath osNoJava
        ++ L "\"" ∧
      (creations r.calls).map (fun a => a.lpCommandLine) = [some cmd] ∧
      (osNoJava.CreateProcessW (createArgs osNoJava) = none →
        (dialogs r.calls).map (fun d => d.lpText) =
          [L "Failed to launch MesterMC.jar. Command: " ++ cmd
            ++ L "\nEnsure Java is installed."]) :=
  ⟨by decide, by decide, C5_command_line 0 0 [] 1 osNoJava (by decide)⟩

/-- C6, the claim as stated fails: from `C:\Apps\Launcher\Launcher.exe` the
base directory is `C:\Apps\Launcher`, and deriving again from that gives
`C:\Apps`. -/
theorem C6_not_idempotent :
    exeFullPath osInstalled = L "C:\\Apps\\Launcher\\Launcher.exe" ∧
    dirOf (L "C:\\Apps\\Launcher\\Launcher.exe") = some (L "C:\\Apps\\Launcher") ∧
    dirOf (L "C:\\Apps\\Launcher") = some (L "C:\\Apps") ∧
    (dirOf (L "C:\\Apps\\Launcher\\Launcher.exe")).bind dirOf
      ≠ dirOf (L "C:\\Apps\\Launcher\\Launcher.exe") := by
  refine ⟨by decide, by decide, by decide, by decide⟩

/-- C6, amended: for every executable path, deriving the base directory again
from the base directory returns it unchanged exactly when the base directory
contains no backslash; when it contains one, the second derivation returns a
strictly shorter prefix of the base directory. -/
theorem C6_idempotent_iff (os : World) :
    ∃ dir, dirOf (exeFullPath os) = some dir ∧
      ((dirOf (exeFullPath os)).bind dirOf = dirOf (exeFullPath os) ↔ backslash ∉ dir) ∧
      (backslash ∈ dir →
        ∃ dir2, (dirOf (exeFullPath os)).bind dirOf = some dir2 ∧
          dir2 <+: dir ∧ dir2.length < dir.length) := by
  refine ⟨exeDir os, dirOf_exeFullPath os, ?_, ?_⟩
  · rw [dirOf_exeFullPath, Option.some_bind, dirOf, substr_zero, Option.some.injEq]
    constructor
    · intro h hmem
      have hlt := find_last_of_lt (exeDir os) backslash hmem
      have hlen := congrArg List.length h
      rw [List.length_take] at hlen
      omega
    · intro h
      rw [find_last_of_eq_npos _ _ h]
      apply List.take_of_length_le
      have h1 : (exeDir os).length ≤ (exeFullPath os).length := by
        rw [exeDir, List.length_take]
        exact Nat.min_le_right _ _
      have h2 := exeFullPath_length_lt_npos os
      omega
  · intro hmem
    have hlt := find_last_of_lt (exeDir os) backslash hmem
    refine ⟨(exeDir os).take (find_last_of (exeDir os) backslash), ?_,
      List.take_prefix _ _, ?_⟩
    · rw [dirOf_exeFullPath, Option.some_bind, dirOf, substr_zero]
    · rw [List.length_take]
      omega

/-- C6, amended, at `C:\Launcher.exe`, where the base directory `C:` holds no
backslash and is returned unchanged by a second derivation, and at
`C:\Apps\Launcher\Launcher.exe`, where the base directory `C:\Apps\Launcher`
holds one and the second derivation returns the shorter `C:\Apps`. -/
theorem C6_idempotent_iff_witness :
    (dirOf (exeFullPath osRoot) = some (L "C:") ∧
      (dirOf (exeFullPath osRoot)).bind dirOf = dirOf (exeFullPath osRoot)) ∧
    (dirOf (exeFullPath osInstalled) = some (L "C:\\Apps\\Launcher") ∧
      ∃ dir2, (dirOf (exeFullPath osInstalled)).bind dirOf = some dir2 ∧
        dir2 <+: L "C:\\Apps\\Launcher" ∧ dir2.length < (L "C:\\Apps\\Launcher").length) := by
  constructor
  · obtain ⟨dir, hdir, hiff, _⟩ := C6_idempotent_iff osRoot
    have h : dirOf (exeFullPath osRoot) = some (L "C:") := by decide
    have hd : dir = L "C:" := Option.some.inj (hdir.symm.trans h)
    exact ⟨h, hiff.mpr (hd ▸ (by decide : backslash ∉ L "C:"))⟩
  · obtain ⟨dir, hdir, _, hshorter⟩ := C6_idempotent_iff osInstalled
    have h : dirOf (exeFullPath osInstalled) = some (L "C:\\Apps\\Launcher") := by decide
    have hd : dir = L "C:\\Apps\\Launcher" := Option.some.inj (hdir.symm.trans h)
    subst hd
    exact ⟨h, hshorter (by decide)⟩

/-- C7: every run presents at most one dialog, and presents one exactly when
the exit code is 1; a dialog's text is the resource-not-found text built from
the resource path or the launch-failure text built from the command, which
never coincide and both occur; every dialog has the caption `Launch Error`
and the style `MB_OK | MB_ICONERROR`. -/
theorem C7_dialogs :
    (∀ (hInstance hPrevInstance : HANDLE) (lpCmdLine : List Nat) (nCmdShow : Int) (os : World),
      ∃ r, WinMain hInstance hPrevInstance lpCmdLine nCmdShow os = some r ∧
        (dialogs r.calls).length ≤ 1 ∧
        ((dialogs r.calls).length = 1 ↔ r.exitCode = 1) ∧
        ∀ d ∈ dialogs r.calls,
          (d.lpText = notFoundText (jarPath os) ∨ d.lpText = launchFailedText (command os)) ∧
          d.lpCaption = L "Launch Error" ∧ d.uType = MB_OK ||| MB_ICONERROR ∧
          d.uType &&& MB_ICONERROR = MB_ICONERROR) ∧
    (∀ path cmd : WString, notFoundText path ≠ launchFailedText cmd) ∧
    (∃ r, WinMain 0 0 [] 1 osAbsent = some r ∧
      (dialogs r.calls).map (fun d => d.lpText) = [notFoundText (jarPath osAbsent)]) ∧
    (∃ r, WinMain 0 0 [] 1 osNoJava = some r ∧
      (dialogs r.calls).map (fun d => d.lpText) = [launchFailedText (command osNoJava)]) := by
  refine ⟨?_, ?_, ⟨_, rfl, by decide⟩, ⟨_, rfl, by decide⟩⟩
  · intro hInstance hPrevInstance lpCmdLine nCmdShow os
    rw [WinMain_eq]
    by_cases hp : os._waccess (jarPath os) 0 = -1
    · rw [if_pos hp]
      refine ⟨_, rfl, Nat.le_refl 1, ⟨fun _ => rfl, fun _ => rfl⟩, ?_⟩
      intro d hd
      have hd2 : d = ⟨notFoundText (jarPath os), L "Launch Error", MB_OK ||| MB_ICONERROR⟩ :=
        List.mem_singleton.mp hd
      subst hd2
      exact ⟨Or.inl rfl, rfl, rfl, (by decide : (MB_OK ||| MB_ICONERROR) &&& MB_ICONERROR = MB_ICONERROR)⟩
    · rw [if_neg hp]
      cases os.CreateProcessW (createArgs os) with
      | none =>
        refine ⟨_, rfl, Nat.le_refl 1, ⟨fun _ => rfl, fun _ => rfl⟩, ?_⟩
        intro d hd
        have hd2 : d = ⟨launchFailedText (command os), L "Launch Error",
            MB_OK ||| MB_ICONERROR⟩ := List.mem_singleton.mp hd
        subst hd2
        exact ⟨Or.inr rfl, rfl, rfl,
          (by decide : (MB_OK ||| MB_ICONERROR) &&& MB_ICONERROR = MB_ICONERROR)⟩
      | some pi =>
        refine ⟨_, rfl, Nat.zero_le 1, ⟨fun h => ?_, fun h => ?_⟩, ?_⟩
        · exact absurd (h : (0 : Nat) = 1) (by decide : ¬ ((0 : Nat) = 1))
        · exact absurd (h : (0 : Int) = 1) (by decide : ¬ ((0 : Int) = 1))
        · intro d hd
          exact absurd hd (List.not_mem_nil d)
  · intro path cmd h
    have h2 := congrArg List.head? h
    exact absurd h2 (by
      show ¬ (some 77 = some 70)
      decide)

/-- C8: two runs whose executable paths, existence-probe answers and
process-creation results agree have the same outcome (the same calls with the
same arguments, the same exit code), whatever the four arguments of `WinMain`
and the caller's current directory are in each. -/
theorem C8_outcome_determined (hInstance hPrevInstance : HANDLE) (lpCmdLine : List Nat)
    (nCmdShow : Int) (hInstance2 hPrevInstance2 : HANDLE) (lpCmdLine2 : List Nat)
    (nCmdShow2 : Int) (os os2 : World)
    (hpath : exeFullPath os = exeFullPath os2)
    (hprobe : os._waccess (jarPath os) 0 = os2._waccess (jarPath os2) 0)
    (hcreate : os.CreateProcessW (createArgs os) = os2.CreateProcessW (createArgs os2)) :
    WinMain hInstance hPrevInstance lpCmdLine nCmdShow os
      = WinMain hInstance2 hPrevInstance2 lpCmdLine2 nCmdShow2 os2 := by
  have hdir : exeDir os = exeDir os2 := by rw [exeDir, exeDir, hpath]
  have hjar : jarPath os = jarPath os2 := by rw [jarPath, jarPath, hdir]
  have hcmd : command os = command os2 := by rw [command, command, hjar]
  have hargs : createArgs os = createArgs os2 := by rw [createArgs, createArgs, hcmd, hdir]
  have h1 : runNotFound os = runNotFound os2 := by rw [runNotFound, runNotFound, hjar]
  have h2 : runLaunchFailed os = runLaunchFailed os2 := by
    rw [runLaunchFailed, runLaunchFailed, hjar, hargs, hcmd]
  have h3 : ∀ pi, runLaunched os pi = runLaunched os2 pi := by
    intro pi
    rw [runLaunched, runLaunched, hjar, hargs]
  rw [WinMain_eq, WinMain_eq, hprobe, hcreate, h1, h2]
  simp only [h3]

/-- C8 at the valid installation, started with different arguments from two
different directories. -/
theorem C8_outcome_determined_witness :
    osInstalled.currentDirectory ≠ osElsewhere.currentDirectory ∧
    WinMain 4194304 0 [] 1 osInstalled
      = WinMain 65536 7 (L "--safe-mode x") 3 osElsewhere :=
  ⟨by decide,
    C8_outcome_determined 4194304 0 [] 1 65536 7 (L "--safe-mode x") 3 osInstalled osElsewhere
      (by decide) (by decide) (by decide)⟩

/-- C9: after a successful process creation the remaining calls are exactly
`CloseHandle` on the process handle and `CloseHandle` on the thread handle
that the creation returned, nothing is closed before, and `WinMain` returns 0;
on either failure path no handle is closed. -/
theorem C9_handles (hInstance hPrevInstance : HANDLE) (lpCmdLine : List Nat)
    (nCmdShow : Int) (os : World) :
    (∀ pi, os._waccess (jarPath os) 0 ≠ -1 → os.CreateProcessW (createArgs os) = some pi →
      ∃ before, WinMain hInstance hPrevInstance lpCmdLine nCmdShow os =
          some ⟨0, before ++ [.CreateProcessW (createArgs os),
            .CloseHandle pi.hProcess, .CloseHandle pi.hThread]⟩ ∧
        creations before = [] ∧ closed before = []) ∧
    (os._waccess (jarPath os) 0 = -1 ∨ os.CreateProcessW (createArgs os) = none →
      ∃ r, WinMain hInstance hPrevInstance lpCmdLine nCmdShow os = some r ∧
        r.exitCode = 1 ∧ closed r.calls = []) := by
  rw [WinMain_eq]
  constructor
  · intro pi hexists hcreated
    rw [if_neg hexists, hcreated]
    exact ⟨[.GetModuleFileNameW none MAX_PATH, ._waccess (jarPath os) 0], rfl, rfl, rfl⟩
  · intro h
    by_cases hp : os._waccess (jarPath os) 0 = -1
    · rw [if_pos hp]
      exact ⟨_, rfl, rfl, rfl⟩
    · rw [if_neg hp]
      rcases h with h | h
      · exact absurd h hp
      · rw [h]
        exact ⟨_, rfl, rfl, rfl⟩

/-- C9 at the valid installation, the one without the resource file and the
one without a Java runtime. -/
theorem C9_handles_witness :
    (∃ r, WinMain 0 0 [] 1 osInstalled = some r ∧ r.exitCode = 0 ∧ closed r.calls = [4, 8]) ∧
    (∃ r, WinMain 0 0 [] 1 osAbsent = some r ∧ r.exitCode = 1 ∧ closed r.calls = []) ∧
    (∃ r, WinMain 0 0 [] 1 osNoJava = some r ∧ r.exitCode = 1 ∧ closed r.calls = []) := by
  refine ⟨?_, (C9_handles 0 0 [] 1 osAbsent).2 (Or.inl (by decide)),
    (C9_handles 0 0 [] 1 osNoJava).2 (Or.inr (by decide))⟩
  obtain ⟨before, hrun, _, hclosed⟩ :=
    (C9_handles 0 0 [] 1 osInstalled).1 ⟨4, 8, 100, 101⟩ (by decide) (by decide)
  refine ⟨_, hrun, rfl, ?_⟩
  simp only [closed, List.filterMap_append] at hclosed ⊢
  rw [hclosed]
  rfl

/-- C10: the derivation of the base directory returns for every path; and
when the executable path holds no backslash, `find_last_of` is `npos`,
`substr(0, npos)` is the whole path, the base directory is the executable
path and the resource path is the executable path followed by
`\MesterMC.jar`. -/
theorem C10_no_separator (os : World) (hno : backslash ∉ exeFullPath os) :
    (∀ p : WString, ∃ dir, dirOf p = some dir) ∧
    find_last_of (exeFullPath os) backslash = npos ∧
    substr (exeFullPath os) 0 npos = some (exeFullPath os) ∧
    dirOf (exeFullPath os) = some (exeFullPath os) ∧
    exeDir os = exeFullPath os ∧
    jarPath os = exeFullPath os ++ L "\\MesterMC.jar" ∧
    ∀ (hInstance hPrevInstance : HANDLE) (lpCmdLine : List Nat) (nCmdShow : Int),
      ∃ r, WinMain hInstance hPrevInstance lpCmdLine nCmdShow os = some r ∧
        probes r.calls = [exeFullPath os ++ L "\\MesterMC.jar"] := by
  have hpos := find_last_of_eq_npos _ _ hno
  have htake : (exeFullPath os).take npos = exeFullPath os :=
    List.take_of_length_le (Nat.le_of_lt (exeFullPath_length_lt_npos os))
  have hsub : substr (exeFullPath os) 0 npos = some (exeFullPath os) := by
    rw [substr_zero, htake]
  have hdir : exeDir os = exeFullPath os := by rw [exeDir, hpos, htake]
  have hjar : jarPath os = exeFullPath os ++ L "\\MesterMC.jar" := by
    rw [jarPath, hdir, List.append_assoc]
    rfl
  refine ⟨fun p => ⟨_, substr_zero p _⟩, hpos, hsub, ?_, hdir, hjar, ?_⟩
  · rw [dirOf, hpos, hsub]
  · intro hInstance hPrevInstance lpCmdLine nCmdShow
    rw [WinMain_eq, ← hjar]
    by_cases hp : os._waccess (jarPath os) 0 = -1
    · rw [if_pos hp]
      exact ⟨_, rfl, rfl⟩
    · rw [if_neg hp]
      cases os.CreateProcessW (createArgs os) <;> exact ⟨_, rfl, rfl⟩

/-- C10 at a path written with forward slashes and at the empty path. -/
theorem C10_no_separator_witness :
    (exeFullPath osSlashes = L "C:/Apps/Launcher/Launcher.exe" ∧
      jarPath osSlashes = L "C:/Apps/Launcher/Launcher.exe" ++ L "\\MesterMC.jar") ∧
    (exeFullPath osEmpty = [] ∧ jarPath osEmpty = L "\\MesterMC.jar") :=
  have h1 := C10_no_separator osSlashes (by decide)
  have h2 := C10_no_separator osEmpty (by decide)
  have e1 : exeFullPath osSlashes = L "C:/Apps/Launcher/Launcher.exe" := by decide
  have e2 : exeFullPath osEmpty = [] := by decide
  ⟨⟨e1, e1 ▸ h1.2.2.2.2.2.1⟩, ⟨e2, by rw [h2.2.2.2.2.2.1, e2]; rfl⟩⟩

end MesterMC
